import Mathlib

/-!
Verification of the live event ingestion and state-reconciliation engine of the
FYP frontend (the Zustand `liveStore`, the `WebSocketProvider` event handlers,
and the start/stop/merge logic of `FLTrainingPage`).

The embedding is shallow: each TypeScript structure becomes a Lean structure,
JS objects used as string-keyed records become association lists, nullable or
possibly-absent fields become `Option`, JS numbers become `ℚ` (for losses,
accuracies and percentages) or `Nat` (for rounds, epochs and counts), and each
event handler becomes a pure function from state and payload to state.
-/

namespace FYP

/-! ## JS objects as association lists -/

/-- Property read `obj[k]` on a JS object modeled as an association list. -/
def objGet {α : Type} (m : List (String × α)) (k : String) : Option α :=
  match m with
  | [] => none
  | p :: rest => if p.1 = k then some p.2 else objGet rest k

/-- JS spread update `{...obj, [k]: v}`: an existing key keeps its position and
receives the new value, a new key is appended at the end. -/
def objSet {α : Type} (m : List (String × α)) (k : String) (v : α) : List (String × α) :=
  match m with
  | [] => [(k, v)]
  | p :: rest => if p.1 = k then (k, v) :: rest else p :: objSet rest k v

/-- JS `delete obj[k]`: the entry for `k` is removed, all others keep order. -/
def objDel {α : Type} (m : List (String × α)) (k : String) : List (String × α) :=
  m.filter (fun p => decide (p.1 ≠ k))

theorem objGet_objSet {α : Type} (m : List (String × α)) (k : String) (v : α) (k' : String) :
    objGet (objSet m k v) k' = if k' = k then some v else objGet m k' := by
  induction m with
  | nil =>
    by_cases h : k' = k
    · simp [objSet, objGet, h]
    · simp [objSet, objGet, h, Ne.symm h]
  | cons p rest ih =>
    by_cases hp : p.1 = k
    · by_cases h : k' = k
      · simp [objSet, objGet, hp, h]
      · have hpk' : ¬ p.1 = k' := by rw [hp]; exact Ne.symm h
        simp [objSet, objGet, hp, h, hpk', Ne.symm h]
    · by_cases hq : p.1 = k'
      · have h : ¬ k' = k := fun hh => hp (hq.trans hh)
        simp [objSet, objGet, hp, hq, h]
      · simp [objSet, objGet, hp, hq, ih]

theorem objGet_objDel {α : Type} (m : List (String × α)) (k k' : String) :
    objGet (objDel m k) k' = if k' = k then none else objGet m k' := by
  induction m with
  | nil => simp [objDel, objGet]
  | cons p rest ih =>
    by_cases hp : p.1 = k
    · by_cases h : k' = k
      · simp only [objDel, List.filter_cons] at ih ⊢
        simpa [objGet, hp, h] using ih
      · have hpk' : ¬ p.1 = k' := by rw [hp]; exact Ne.symm h
        simp only [objDel, List.filter_cons] at ih ⊢
        simpa [objGet, hp, h, hpk', Ne.symm h] using ih
    · by_cases hq : p.1 = k'
      · have h : ¬ k' = k := fun hh => hp (hq.trans hh)
        simp only [objDel, List.filter_cons] at ih ⊢
        simp [objGet, hp, hq, h]
      · simp only [objDel, List.filter_cons] at ih ⊢
        simpa [objGet, hp, hq] using ih

theorem objGet_eq_none_of_not_mem_keys {α : Type} (m : List (String × α)) (k : String)
    (h : k ∉ m.map Prod.fst) : objGet m k = none := by
  induction m with
  | nil => rfl
  | cons p rest ih =>
    simp only [List.map_cons, List.mem_cons] at h
    push_neg at h
    simp only [objGet, if_neg (fun hh : p.1 = k => h.1 hh.symm)]
    exact ih h.2

/-! ## Data model (liveStore.ts) -/

/-- `LivePrediction` from liveStore.ts. -/
structure LivePrediction where
  id : Option Nat := none
  device_id : String
  device_name : Option String := none
  client_id : Option Nat := none
  score : ℚ
  label : String
  confidence : ℚ
  attack_type : Option String := none
  inference_latency_ms : Option ℚ := none
  model_version : Option String := none
  timestamp : String
deriving DecidableEq

/-- `FLClientProgress` from liveStore.ts (optional per-batch fields included). -/
structure FLClientProgress where
  client_id : String
  status : String
  current_epoch : Nat
  total_epochs : Nat
  local_loss : ℚ
  local_accuracy : ℚ
  num_samples : Nat
  progress_pct : ℚ
  batch : Option Nat := none
  total_batches : Option Nat := none
  batches_processed : Option Nat := none
  grand_total_batches : Option Nat := none
  samples_processed : Option Nat := none
  total_samples : Option Nat := none
  throughput : Option ℚ := none
  eta_seconds : Option ℚ := none
  current_loss : Option ℚ := none
  current_accuracy : Option ℚ := none
  last_update_time : Option String := none
deriving DecidableEq

/-- `FLGlobalProgress` from liveStore.ts. -/
structure FLGlobalProgress where
  is_training : Bool
  current_round : Nat
  total_rounds : Nat
  global_loss : Option ℚ
  global_accuracy : Option ℚ
  aggregation_method : Option String := none
  use_he : Option Bool := none
  expected_clients : Option Nat := none
deriving DecidableEq

/-- One element of `flRoundResults` in liveStore.ts. -/
structure RoundResult where
  round : Nat
  loss : Option ℚ
  accuracy : Option ℚ
deriving DecidableEq

/-- One element of a `flClientRoundHistory` entry in liveStore.ts. -/
structure ClientRoundEntry where
  round : Nat
  loss : ℚ
  accuracy : ℚ
deriving DecidableEq

/-- The slice of the Zustand live store the FL engine mutates. -/
structure LiveState where
  latestPredictions : List LivePrediction
  flClientProgress : List (String × FLClientProgress)
  flGlobalProgress : Option FLGlobalProgress
  flRoundResults : List RoundResult
  flClientRoundHistory : List (String × List ClientRoundEntry)
deriving DecidableEq

/-- The store's initial state. -/
def initialLiveState : LiveState :=
  { latestPredictions := []
    flClientProgress := []
    flGlobalProgress := none
    flRoundResults := []
    flClientRoundHistory := [] }

/-! ## Store mutators (liveStore.ts) -/

/-- Ring buffer size from liveStore.ts. -/
def MAX_PREDICTIONS : Nat := 50

/-- `addPrediction`: `[p, ...state.latestPredictions].slice(0, MAX_PREDICTIONS)`. -/
def addPrediction (s : LiveState) (p : LivePrediction) : LiveState :=
  { s with latestPredictions := (p :: s.latestPredictions).take MAX_PREDICTIONS }

/-- `setFLClientProgress`: spread-upsert of one client entry. -/
def setFLClientProgress (s : LiveState) (clientId : String) (progress : FLClientProgress) :
    LiveState :=
  { s with flClientProgress := objSet s.flClientProgress clientId progress }

/-- `clearFLProgress`: resets the per-client map and the global record. -/
def clearFLProgress (s : LiveState) : LiveState :=
  { s with flClientProgress := [], flGlobalProgress := none }

/-- `setFLGlobalProgress`. -/
def setFLGlobalProgress (s : LiveState) (progress : FLGlobalProgress) : LiveState :=
  { s with flGlobalProgress := some progress }

/-- `addFLRoundResult`: appends one round result. -/
def addFLRoundResult (s : LiveState) (round : Nat) (loss accuracy : Option ℚ) : LiveState :=
  { s with flRoundResults := s.flRoundResults ++ [⟨round, loss, accuracy⟩] }

/-- `clearFLRoundResults`. -/
def clearFLRoundResults (s : LiveState) : LiveState :=
  { s with flRoundResults := [] }

/-- `addFLClientRoundEntry`: appends to the per-client history (`?? []`). -/
def addFLClientRoundEntry (s : LiveState) (clientId : String) (round : Nat)
    (loss accuracy : ℚ) : LiveState :=
  let prev := (objGet s.flClientRoundHistory clientId).getD []
  { s with flClientRoundHistory :=
      objSet s.flClientRoundHistory clientId (prev ++ [⟨round, loss, accuracy⟩]) }

/-- `clearFLClientRoundHistory`. -/
def clearFLClientRoundHistory (s : LiveState) : LiveState :=
  { s with flClientRoundHistory := [] }

/-! ## Event payloads and handlers (WebSocketProvider.tsx) -/

/-- JS `x || dflt` on a nullable string (empty string is falsy). -/
def jsOrString (o : Option String) (dflt : String) : String :=
  match o with
  | some x => if x = "" then dflt else x
  | none => dflt

/-- Payload of an `fl_progress` event (fields the handler reads). Absent fields
are `none`. -/
structure FLProgressData where
  client_id : Option String := none
  phase : Option String := none
  epoch : Option Nat := none
  total_epochs : Option Nat := none
  epoch_loss : Option ℚ := none
  loss : Option ℚ := none
  local_accuracy : Option ℚ := none
  accuracy : Option ℚ := none
  num_samples : Option Nat := none
  batch : Option Nat := none
  total_batches : Option Nat := none
  batches_processed : Option Nat := none
  grand_total_batches : Option Nat := none
  samples_processed : Option Nat := none
  total_samples : Option Nat := none
  throughput : Option ℚ := none
  eta_seconds : Option ℚ := none
  current_loss : Option ℚ := none
  current_accuracy : Option ℚ := none
  last_update_time : Option String := none
  round : Option Nat := none
  total_rounds : Option Nat := none
deriving DecidableEq

/-- The `subscribe('fl_progress')` handler: updates one client entry, and — when
the payload carries `round` — rewrites the global progress record with the
event's round. -/
def handleFLProgress (s : LiveState) (d : FLProgressData) : LiveState :=
  match d.client_id with
  | none => s
  | some clientId =>
    if clientId = "" then s else
      let phase := jsOrString d.phase "idle"
      let epoch := d.epoch.getD 0
      let totalEpochs := d.total_epochs.getD 0
      let epochLoss := (d.epoch_loss.or d.loss).getD 0
      let status :=
        if phase = "training" then "training"
        else if phase = "sending_weights" then "sending"
        else if phase = "encrypting" then "encrypting"
        else if phase = "aggregating" then "done"
        else "idle"
      let batchesProcessed := d.batches_processed.getD 0
      let grandTotalBatches := d.grand_total_batches.getD 0
      let progressPct0 : ℚ :=
        if 0 < grandTotalBatches ∧ 0 < batchesProcessed then
          min 100 ((batchesProcessed : ℚ) / (grandTotalBatches : ℚ) * 100)
        else if 0 < totalEpochs ∧ 0 < epoch then
          min 100 ((epoch : ℚ) / (totalEpochs : ℚ) * 100)
        else 0
      let progressPct := if phase = "sending_weights" then (100 : ℚ) else progressPct0
      let s1 := setFLClientProgress s clientId
        { client_id := clientId
          status := status
          current_epoch := epoch
          total_epochs := totalEpochs
          local_loss := epochLoss
          local_accuracy := (d.local_accuracy.or d.accuracy).getD 0
          num_samples := d.num_samples.getD 0
          progress_pct := progressPct
          batch := d.batch
          total_batches := d.total_batches
          batches_processed := if batchesProcessed = 0 then none else some batchesProcessed
          grand_total_batches := if grandTotalBatches = 0 then none else some grandTotalBatches
          samples_processed := d.samples_processed
          total_samples := d.total_samples
          throughput := d.throughput
          eta_seconds := d.eta_seconds
          current_loss := d.current_loss
          current_accuracy := d.current_accuracy
          last_update_time := d.last_update_time }
      match d.round with
      | none => s1
      | some r =>
        let existing := s1.flGlobalProgress
        setFLGlobalProgress s1
          { is_training := true
            current_round := r
            total_rounds := d.total_rounds.getD ((existing.map (·.total_rounds)).getD 0)
            global_loss := existing.bind (·.global_loss)
            global_accuracy := existing.bind (·.global_accuracy)
            use_he := existing.bind (·.use_he) }

/-- One element of the `client_metrics` list of an `fl_round` event. -/
structure ClientMetric where
  client_id : String
  local_loss : ℚ
  local_accuracy : ℚ
  num_samples : Nat
deriving DecidableEq

/-- Payload of an `fl_round` event. -/
structure FLRoundData where
  round_number : Nat
  global_loss : Option ℚ := none
  global_accuracy : Option ℚ := none
  total_rounds : Option Nat := none
  aggregation_method : Option String := none
  client_metrics : Option (List ClientMetric) := none
deriving DecidableEq

/-- The client entry written for one `client_metrics` element of an `fl_round`
event: status done, 100 percent, metrics from the event. -/
def doneProgress (cm : ClientMetric) : FLClientProgress :=
  { client_id := cm.client_id
    status := "done"
    current_epoch := 0
    total_epochs := 0
    local_loss := cm.local_loss
    local_accuracy := cm.local_accuracy
    num_samples := cm.num_samples
    progress_pct := 100 }

/-- One iteration of the `for (const cm of clientMetrics)` loop of the
`fl_round` handler. -/
def applyClientMetric (roundNumber : Nat) (st : LiveState) (cm : ClientMetric) : LiveState :=
  let st1 := setFLClientProgress st cm.client_id (doneProgress cm)
  addFLClientRoundEntry st1 cm.client_id roundNumber cm.local_loss cm.local_accuracy

/-- The `subscribe('fl_round')` handler. -/
def handleFLRound (s : LiveState) (d : FLRoundData) : LiveState :=
  let s1 := addFLRoundResult s d.round_number d.global_loss d.global_accuracy
  let totalRounds := d.total_rounds.getD d.round_number
  let currentRound := d.round_number
  let s2 := setFLGlobalProgress s1
    { is_training := decide (currentRound < totalRounds)
      current_round := currentRound
      total_rounds := totalRounds
      global_loss := d.global_loss
      global_accuracy := d.global_accuracy
      aggregation_method := d.aggregation_method }
  match d.client_metrics with
  | none => s2
  | some cms => cms.foldl (applyClientMetric d.round_number) s2

/-- Payload of a `training_complete` event. -/
structure TrainingCompleteData where
  total_rounds : Option Nat := none
  rounds_completed : Option Nat := none
  global_loss : Option ℚ := none
  global_accuracy : Option ℚ := none
deriving DecidableEq

/-- The `subscribe('training_complete')` handler: flips the session to
not-training and deliberately clears nothing else. -/
def handleTrainingComplete (s : LiveState) (d : TrainingCompleteData) : LiveState :=
  let totalRounds := (d.total_rounds.or d.rounds_completed).getD 0
  setFLGlobalProgress s
    { is_training := false
      current_round := totalRounds
      total_rounds := totalRounds
      global_loss := d.global_loss
      global_accuracy := d.global_accuracy }

/-! ## Start / stop orchestration (FLTrainingPage.tsx, handleStart / handleStop)

The HTTP operations `flApi.start` and `flApi.stop` are external collaborators
(REST calls); their result enters the model as an outcome value. All state
transitions below are translated from the page component. -/

/-- The configuration `handleStart` receives. -/
structure StartConfig where
  num_rounds : Nat
  local_epochs : Nat
  learning_rate : ℚ
  min_clients : Nat
  use_he : Bool
  client_ids : Option (List String) := none
deriving DecidableEq

/-- The placeholder entry pre-populated (and re-inserted on reconciliation):
status waiting, zero progress. -/
def waitingPlaceholder (cid : String) : FLClientProgress :=
  { client_id := cid
    status := "waiting"
    current_epoch := 0
    total_epochs := 0
    local_loss := 0
    local_accuracy := 0
    num_samples := 0
    progress_pct := 0 }

/-- The clearing prefix of `handleStart`: `clearFLProgress()`,
`clearFLRoundResults()`, `clearFLClientRoundHistory()`. -/
def startClearPhase (s : LiveState) : LiveState :=
  clearFLClientRoundHistory (clearFLRoundResults (clearFLProgress s))

/-- `cfg.client_ids ?? clients.map((c) => c.client_id)`. -/
def optimisticClientIds (cfg : StartConfig) (clients : List String) : List String :=
  cfg.client_ids.getD clients

/-- The optimistic phase of `handleStart`, before the request resolves: clear
everything, write the session record, seed one waiting placeholder per id. -/
def startOptimistic (s : LiveState) (cfg : StartConfig) (clients : List String) : LiveState :=
  let s0 := startClearPhase s
  let ids := optimisticClientIds cfg clients
  let s1 := setFLGlobalProgress s0
    { is_training := true
      current_round := 0
      total_rounds := cfg.num_rounds
      global_loss := none
      global_accuracy := none
      use_he := some cfg.use_he
      expected_clients := some ids.length }
  ids.foldl (fun st cid => setFLClientProgress st cid (waitingPlaceholder cid)) s1

/-- The reconciliation block of `handleStart` after a successful start request:
delete optimistic ids absent from the response, then insert placeholders for
response ids absent from the pre-deletion snapshot `current`. -/
def reconcileClientIds (current : List (String × FLClientProgress)) (respIds : List String) :
    List (String × FLClientProgress) :=
  let afterDel := (current.map Prod.fst).foldl
    (fun st cid => if cid ∈ respIds then st else objDel st cid) current
  respIds.foldl
    (fun st cid => if (objGet current cid).isSome then st
                   else objSet st cid (waitingPlaceholder cid)) afterDel

/-- Resolution of the external start request. -/
inductive StartOutcome where
  | ok (client_ids : Option (List String))
  | err (msg : String)
deriving DecidableEq

/-- Resolution of the external stop request. -/
inductive StopOutcome where
  | ok
  | err (msg : String)
deriving DecidableEq

/-- React component state of FLTrainingPage that the two handlers touch. -/
structure PageState where
  starting : Bool := false
  stopping : Bool := false
  error : Option String := none
  configOpen : Bool := false
deriving DecidableEq

/-- `handleStart`: optimistic phase, then — depending on the request outcome —
reconciliation with the authoritative id list, or rollback via
`clearFLProgress` plus a surfaced error. -/
def handleStart (ps : PageState) (s : LiveState) (cfg : StartConfig)
    (clients : List String) (outcome : StartOutcome) : PageState × LiveState :=
  let ps1 : PageState := { ps with starting := true, error := none }
  let s1 := startOptimistic s cfg clients
  match outcome with
  | .ok respIds =>
    let s2 := match respIds with
      | some ids => { s1 with flClientProgress := reconcileClientIds s1.flClientProgress ids }
      | none => s1
    ({ ps1 with configOpen := false, starting := false }, s2)
  | .err msg =>
    ({ ps1 with error := some msg, starting := false }, clearFLProgress s1)

/-- `handleStop`: calls the external stop operation; on success it refetches
polled data (which does not touch the live store), on failure it surfaces the
error. In neither branch does it write to the live store. -/
def handleStop (ps : PageState) (s : LiveState) (outcome : StopOutcome) :
    PageState × LiveState :=
  let ps1 : PageState := { ps with stopping := true, error := none }
  match outcome with
  | .ok => ({ ps1 with stopping := false }, s)
  | .err msg => ({ ps1 with error := some msg, stopping := false }, s)

/-! ## Chart merge (FLTrainingPage.tsx, chartData) -/

/-- Polled `FLRound` row from the REST API (types/index.ts). -/
structure FLRound where
  id : Nat
  round_number : Nat
  num_clients : Nat := 0
  global_loss : Option ℚ := none
  global_accuracy : Option ℚ := none
  global_f1 : Option ℚ := none
  global_precision : Option ℚ := none
  global_recall : Option ℚ := none
  aggregation_method : String := ""
  he_scheme : Option String := none
  duration_seconds : Option ℚ := none
deriving DecidableEq

/-- JS `+x.toFixed(digits)` on a rational (ties round up, as for the
nonnegative metric values involved). -/
def toFixed (digits : Nat) (q : ℚ) : ℚ :=
  ((round (q * 10 ^ digits) : ℤ) : ℚ) / 10 ^ digits

/-- `x ? +(x*100).toFixed(1) : null` — JS truthiness: null and 0 are falsy. -/
def dispAccuracy (oa : Option ℚ) : Option ℚ :=
  match oa with
  | some a => if a = 0 then none else some (toFixed 1 (a * 100))
  | none => none

/-- `x ? +x.toFixed(4) : null`. -/
def dispLoss (ol : Option ℚ) : Option ℚ :=
  match ol with
  | some l => if l = 0 then none else some (toFixed 4 l)
  | none => none

/-- One row of the merged chart sequence. -/
structure ChartRow where
  round : String
  roundNum : Nat
  accuracy : Option ℚ
  loss : Option ℚ
  session : Nat
  id : Nat
deriving DecidableEq

/-- A default row, used only as the fallback of `List.getD`. -/
def dummyRow : ChartRow :=
  { round := "", roundNum := 0, accuracy := none, loss := none, session := 0, id := 0 }

/-- A default polled round, used only as the fallback of `List.getD`. -/
def dummyRound : FLRound := { id := 0, round_number := 0 }

/-- The row pushed for one polled round at the current session counter. -/
def mkPolledRow (sessionNum : Nat) (r : FLRound) : ChartRow :=
  { round := "S" ++ toString sessionNum ++ "·R" ++ toString r.round_number
    roundNum := r.round_number
    accuracy := dispAccuracy r.global_accuracy
    loss := dispLoss r.global_loss
    session := sessionNum
    id := r.id }

/-- The first loop of `chartData`: the session counter increments at each
polled round whose `round_number` is 1; returns the final counter and the
labeled rows. -/
def polledRows (sessionNum : Nat) : List FLRound → Nat × List ChartRow
  | [] => (sessionNum, [])
  | r :: rs =>
    let sn := if r.round_number = 1 then sessionNum + 1 else sessionNum
    let rest := polledRows sn rs
    (rest.1, mkPolledRow sn r :: rest.2)

/-- The string key `round + '_' + session` used for de-duplication. -/
def roundKey (n sessionNum : Nat) : String :=
  toString n ++ "_" ++ toString sessionNum

/-- `chartData`: label polled rounds with session boundaries, then append live
round results whose key is not in `seenIds` (note the source computes every
`seenIds` key with the final session counter). -/
def chartData (rounds : List FLRound) (liveRoundResults : List RoundResult) : List ChartRow :=
  let pr := polledRows 0 rounds
  let sessionNum := pr.1
  let seenIds := rounds.map (fun r => roundKey r.round_number sessionNum)
  let liveSession := if sessionNum = 0 then 1 else sessionNum
  let fresh := liveRoundResults.filter
    (fun lr => decide (roundKey lr.round liveSession ∉ seenIds))
  pr.2 ++ fresh.map (fun lr =>
    { round := if 0 < sessionNum then
                 "S" ++ toString sessionNum ++ "·R" ++ toString lr.round
               else "R" ++ toString lr.round
      roundNum := lr.round
      accuracy := dispAccuracy lr.accuracy
      loss := dispLoss lr.loss
      session := liveSession
      id := 0 })

/-! ## Helper lemmas -/

/-- A whole sequence of prediction pushes, starting from a given state. -/
def pushAll (s : LiveState) (ps : List LivePrediction) : LiveState :=
  ps.foldl addPrediction s

theorem pushAll_length_le (ps : List LivePrediction) :
    ∀ s : LiveState, s.latestPredictions.length ≤ MAX_PREDICTIONS →
      (pushAll s ps).latestPredictions.length ≤ MAX_PREDICTIONS := by
  induction ps with
  | nil => intro s h; exact h
  | cons p rest ih =>
    intro s _
    exact ih _ (by simp [addPrediction])

theorem foldCM_flGlobalProgress (n : Nat) (cms : List ClientMetric) :
    ∀ st : LiveState,
      (cms.foldl (applyClientMetric n) st).flGlobalProgress = st.flGlobalProgress := by
  induction cms with
  | nil => intro st; rfl
  | cons cm rest ih => intro st; rw [List.foldl_cons, ih]; rfl

theorem foldCM_flRoundResults (n : Nat) (cms : List ClientMetric) :
    ∀ st : LiveState,
      (cms.foldl (applyClientMetric n) st).flRoundResults = st.flRoundResults := by
  induction cms with
  | nil => intro st; rfl
  | cons cm rest ih => intro st; rw [List.foldl_cons, ih]; rfl

/-! ## Claims -/

/-- Claim C4: starting from the empty buffer, any sequence of `addPrediction`
pushes keeps the stored list within the fixed capacity 50; index 0 always
holds the item just pushed; and a push beyond capacity only drops the tail
element (the oldest), with no error path. -/
theorem ringBuffer_bounded_and_newest_first (ps : List LivePrediction)
    (p : LivePrediction) (s : LiveState) :
    (pushAll initialLiveState ps).latestPredictions.length ≤ MAX_PREDICTIONS ∧
    (addPrediction s p).latestPredictions.head? = some p ∧
    (addPrediction s p).latestPredictions
      = p :: s.latestPredictions.take (MAX_PREDICTIONS - 1) := by
  refine ⟨pushAll_length_le ps initialLiveState (by simp [initialLiveState]), rfl, rfl⟩

/-- Claim C7: a `training_complete` event flips `is_training` to false and
leaves the client-progress map, the round results, the per-client round
history (and the prediction buffer) exactly unchanged. -/
theorem trainingComplete_frame (s : LiveState) (d : TrainingCompleteData) :
    (handleTrainingComplete s d).flGlobalProgress.map (·.is_training) = some false ∧
    (handleTrainingComplete s d).flClientProgress = s.flClientProgress ∧
    (handleTrainingComplete s d).flRoundResults = s.flRoundResults ∧
    (handleTrainingComplete s d).flClientRoundHistory = s.flClientRoundHistory ∧
    (handleTrainingComplete s d).latestPredictions = s.latestPredictions :=
  ⟨rfl, rfl, rfl, rfl, rfl⟩

/-- Claim C5: when the start request errors, the whole optimistic session is
discarded — the session record becomes `none` and the client-progress map
becomes empty — and the error message is surfaced. -/
theorem startFailure_rollback (ps : PageState) (s : LiveState) (cfg : StartConfig)
    (clients : List String) (msg : String) :
    (handleStart ps s cfg clients (StartOutcome.err msg)).2.flGlobalProgress = none ∧
    (handleStart ps s cfg clients (StartOutcome.err msg)).2.flClientProgress = [] ∧
    (handleStart ps s cfg clients (StartOutcome.err msg)).1.error = some msg :=
  ⟨rfl, rfl, rfl⟩

/-- Default page component state. -/
def initialPageState : PageState := {}

/-- Global-progress record of a live session used in concrete counterexamples. -/
def c6GP : FLGlobalProgress :=
  { is_training := true, current_round := 2, total_rounds := 5,
    global_loss := none, global_accuracy := none }

/-- A live-session store state used in concrete counterexamples. -/
def c6State : LiveState := { initialLiveState with flGlobalProgress := some c6GP }

/-- Counterexample to claim C6: with a live session (`is_training = true`), a
failing stop request leaves `is_training` at `true` — `handleStop` does not
mark the session not-training — even though the error is surfaced. -/
theorem handleStop_failure_counterexample :
    (handleStop initialPageState c6State (StopOutcome.err "stop failed")).2.flGlobalProgress.map
        (·.is_training) = some true ∧
    (handleStop initialPageState c6State (StopOutcome.err "stop failed")).2.flGlobalProgress.map
        (·.is_training) ≠ some false ∧
    (handleStop initialPageState c6State (StopOutcome.err "stop failed")).1.error
        = some "stop failed" :=
  ⟨rfl, by decide, rfl⟩

/-- Claim C6 (amended): `handleStop` never writes to the live store — the local
session record (in particular `is_training`) is unchanged whether the external
stop succeeds or fails; on failure the error message is surfaced. The
not-training marking comes only from later events or polling. -/
theorem handleStop_leaves_liveState (ps : PageState) (s : LiveState)
    (o : StopOutcome) (m : String) :
    (handleStop ps s o).2 = s ∧
    (handleStop ps s (StopOutcome.err m)).1.error = some m := by
  refine ⟨?_, rfl⟩
  cases o <;> rfl

/-- Global-progress record with `current_round = 5`, for the C1 counterexample. -/
def c1GP : FLGlobalProgress :=
  { is_training := true, current_round := 5, total_rounds := 10,
    global_loss := none, global_accuracy := none }

/-- Store state whose session sits at round 5. -/
def c1State : LiveState := { initialLiveState with flGlobalProgress := some c1GP }

/-- A stale per-client progress event carrying `round = 3`. -/
def c1Event : FLProgressData :=
  { client_id := some "bank_a", phase := some "training", epoch := some 1,
    total_epochs := some 3, round := some 3, total_rounds := some 10 }

/-- Counterexample to claim C1: the session is at `current_round = 5`, a
per-client progress event carries `round = 3 < 5`, yet after processing the
session's `current_round` is 3 — the handler has no monotonic guard and the
round regresses. -/
theorem flProgress_round_regression_counterexample :
    c1Event.round = some 3 ∧
    c1State.flGlobalProgress.map (·.current_round) = some 5 ∧
    (handleFLProgress c1State c1Event).flGlobalProgress.map (·.current_round) = some 3 ∧
    (handleFLProgress c1State c1Event).flGlobalProgress.map (·.current_round) ≠ some 5 :=
  ⟨rfl, rfl, by rfl, by decide⟩

/-- Claim C1 (amended): an `fl_progress` event with a non-empty `client_id`
that carries round `r` always overwrites the session's `current_round` with
`r`, whatever was stored before — there is no monotonic guard, so a stale
event can regress the displayed round. -/
theorem flProgress_sets_round_unconditionally (s : LiveState) (d : FLProgressData)
    (cid : String) (r : Nat) :
    (handleFLProgress s
        { d with client_id := some cid, round := some r }).flGlobalProgress.map
          (·.current_round)
      = if cid = "" then s.flGlobalProgress.map (·.current_round) else some r := by
  by_cases h : cid = "" <;>
    simp [handleFLProgress, setFLGlobalProgress, setFLClientProgress, h]

/-- Claim C10: an `fl_round` event stores `total_rounds` from the event (or the
event's own round number when absent) and sets `is_training` to the decision
`round_number < total_rounds` — so the final round's completion flips the
session to not-training by itself, while an earlier round leaves it training. -/
theorem flRound_is_training_iff_not_final (s : LiveState) (d : FLRoundData) :
    (handleFLRound s d).flGlobalProgress.map (·.total_rounds)
        = some (d.total_rounds.getD d.round_number) ∧
    (handleFLRound s d).flGlobalProgress.map (·.is_training)
        = some (decide (d.round_number < d.total_rounds.getD d.round_number)) := by
  cases hcm : d.client_metrics with
  | none =>
    constructor <;>
      simp [handleFLRound, hcm, setFLGlobalProgress, addFLRoundResult]
  | some cms =>
    constructor <;>
      simp [handleFLRound, hcm, foldCM_flGlobalProgress, setFLGlobalProgress,
        addFLRoundResult]

theorem seedFold_objGet (ids : List String) :
    ∀ (st : LiveState) (k : String),
      objGet ((ids.foldl
          (fun st cid => setFLClientProgress st cid (waitingPlaceholder cid)) st).flClientProgress) k
        = if k ∈ ids then some (waitingPlaceholder k) else objGet st.flClientProgress k := by
  induction ids with
  | nil => intro st k; simp
  | cons cid rest ih =>
    intro st k
    rw [List.foldl_cons, ih]
    by_cases hk : k ∈ rest
    · simp [hk]
    · by_cases hc : k = cid
      · simp [hk, hc, setFLClientProgress, objGet_objSet]
      · simp [hk, hc, setFLClientProgress, objGet_objSet]

theorem seedFold_rest (ids : List String) :
    ∀ st : LiveState,
      ((ids.foldl
          (fun st cid => setFLClientProgress st cid (waitingPlaceholder cid)) st).flGlobalProgress
        = st.flGlobalProgress) ∧
      ((ids.foldl
          (fun st cid => setFLClientProgress st cid (waitingPlaceholder cid)) st).flRoundResults
        = st.flRoundResults) ∧
      ((ids.foldl
          (fun st cid => setFLClientProgress st cid (waitingPlaceholder cid)) st).flClientRoundHistory
        = st.flClientRoundHistory) := by
  induction ids with
  | nil => intro st; exact ⟨rfl, rfl, rfl⟩
  | cons cid rest ih =>
    intro st
    rw [List.foldl_cons]
    exact ih (setFLClientProgress st cid (waitingPlaceholder cid))

/-- The session record written by the optimistic phase of `handleStart`. -/
def startSessionRecord (cfg : StartConfig) (clients : List String) : FLGlobalProgress :=
  { is_training := true
    current_round := 0
    total_rounds := cfg.num_rounds
    global_loss := none
    global_accuracy := none
    use_he := some cfg.use_he
    expected_clients := some (optimisticClientIds cfg clients).length }

/-- Claim C3: the optimistic start phase first clears the client-progress map,
the session record, the round results and the per-client history, and only
then writes the new session record (`is_training = true, current_round = 0`,
the requested round count) and seeds one waiting/zero placeholder per supplied
client id (explicit list, or all known clients when none is given) — the
seeding fold starts from the already-cleared state, so no placeholder is ever
inserted next to a pre-start entry. -/
theorem startOptimistic_clears_then_seeds (s : LiveState) (cfg : StartConfig)
    (clients : List String) :
    ((startClearPhase s).flClientProgress = [] ∧
     (startClearPhase s).flGlobalProgress = none ∧
     (startClearPhase s).flRoundResults = [] ∧
     (startClearPhase s).flClientRoundHistory = []) ∧
    (startOptimistic s cfg clients
      = (optimisticClientIds cfg clients).foldl
          (fun st cid => setFLClientProgress st cid (waitingPlaceholder cid))
          (setFLGlobalProgress (startClearPhase s) (startSessionRecord cfg clients))) ∧
    (startOptimistic s cfg clients).flGlobalProgress
      = some (startSessionRecord cfg clients) ∧
    (∀ k, objGet (startOptimistic s cfg clients).flClientProgress k
        = if k ∈ optimisticClientIds cfg clients then some (waitingPlaceholder k) else none) ∧
    (startOptimistic s cfg clients).flRoundResults = [] ∧
    (startOptimistic s cfg clients).flClientRoundHistory = [] := by
  refine ⟨⟨rfl, rfl, rfl, rfl⟩, rfl, ?_, ?_, ?_, ?_⟩
  · rw [show startOptimistic s cfg clients
        = (optimisticClientIds cfg clients).foldl
            (fun st cid => setFLClientProgress st cid (waitingPlaceholder cid))
            (setFLGlobalProgress (startClearPhase s) (startSessionRecord cfg clients))
        from rfl]
    rw [(seedFold_rest (optimisticClientIds cfg clients) _).1]
    rfl
  · intro k
    rw [show startOptimistic s cfg clients
        = (optimisticClientIds cfg clients).foldl
            (fun st cid => setFLClientProgress st cid (waitingPlaceholder cid))
            (setFLGlobalProgress (startClearPhase s) (startSessionRecord cfg clients))
        from rfl]
    rw [seedFold_objGet]
    by_cases hk : k ∈ optimisticClientIds cfg clients
    · simp [hk]
    · simp [hk, setFLGlobalProgress, startClearPhase, clearFLClientRoundHistory,
        clearFLRoundResults, clearFLProgress, objGet]
  · rw [show startOptimistic s cfg clients
        = (optimisticClientIds cfg clients).foldl
            (fun st cid => setFLClientProgress st cid (waitingPlaceholder cid))
            (setFLGlobalProgress (startClearPhase s) (startSessionRecord cfg clients))
        from rfl]
    rw [(seedFold_rest (optimisticClientIds cfg clients) _).2.1]
    rfl
  · rw [show startOptimistic s cfg clients
        = (optimisticClientIds cfg clients).foldl
            (fun st cid => setFLClientProgress st cid (waitingPlaceholder cid))
            (setFLGlobalProgress (startClearPhase s) (startSessionRecord cfg clients))
        from rfl]
    rw [(seedFold_rest (optimisticClientIds cfg clients) _).2.2]
    rfl

theorem delFold_objGet {α : Type} (A : List String) (ks : List String) :
    ∀ (st : List (String × α)) (k : String),
      objGet (ks.foldl (fun st cid => if cid ∈ A then st else objDel st cid) st) k
        = if k ∈ ks ∧ k ∉ A then none else objGet st k := by
  induction ks with
  | nil => intro st k; simp
  | cons cid rest ih =>
    intro st k
    rw [List.foldl_cons, ih]
    by_cases hA : k ∈ A
    · simp only [hA, not_true_eq_false, and_false, if_false]
      by_cases hcid : cid ∈ A
      · simp [hcid]
      · have hkc : ¬ k = cid := fun h => hcid (h ▸ hA)
        simp [hcid, objGet_objDel, hkc]
    · by_cases hk : k ∈ rest
      · simp [hk, hA]
      · by_cases hc : k = cid
        · have hcid : ¬ cid ∈ A := hc ▸ hA
          simp [hk, hA, hc, hcid, objGet_objDel]
        · have hmem : ¬ k ∈ cid :: rest := by
            simp [List.mem_cons, hc, hk]
          by_cases hcid : cid ∈ A
          · simp [hk, hA, hmem, hcid]
          · simp [hk, hA, hmem, hcid, objGet_objDel, hc]

theorem insFold_objGet (current : List (String × FLClientProgress)) (A : List String) :
    ∀ (st : List (String × FLClientProgress)) (k : String),
      objGet (A.foldl
          (fun st cid => if (objGet current cid).isSome then st
                         else objSet st cid (waitingPlaceholder cid)) st) k
        = if k ∈ A ∧ objGet current k = none then some (waitingPlaceholder k)
          else objGet st k := by
  induction A with
  | nil => intro st k; simp
  | cons cid rest ih =>
    intro st k
    rw [List.foldl_cons, ih]
    by_cases hcur : objGet current k = none
    · by_cases hk : k ∈ rest
      · simp [hk, hcur]
      · by_cases hc : k = cid
        · have hsome : ¬ (objGet current cid).isSome := by
            rw [← hc, hcur]; simp
          have hcur' : objGet current cid = none := hc ▸ hcur
          simp [hk, hcur, hcur', hc, hsome, objGet_objSet]
        · have hmem : k ∈ cid :: rest ↔ False := by
            simp [List.mem_cons, hc, hk]
          by_cases hsome : (objGet current cid).isSome
          · simp [hk, hcur, hmem, hsome]
          · simp [hk, hcur, hmem, hsome, objGet_objSet, hc]
    · simp only [hcur, and_false, if_false]
      by_cases hsome : (objGet current cid).isSome
      · simp [hsome]
      · have hc : ¬ k = cid := by
          intro h
          rw [Option.not_isSome_iff_eq_none] at hsome
          exact hcur (h ▸ hsome)
        simp [hsome, objGet_objSet, hc]

/-- Claim C2: reconciliation with the authoritative id list `A`, characterized
pointwise — the key set of the reconciled map is exactly `A` (lookups are
`some` exactly on `A`), ids in both keep the exact entry they had before, and
ids only in `A` get a fresh waiting/zero placeholder. -/
theorem reconcile_characterization (current : List (String × FLClientProgress))
    (A : List String) (k : String) :
    objGet (reconcileClientIds current A) k
      = if k ∈ A then (objGet current k).or (some (waitingPlaceholder k)) else none := by
  unfold reconcileClientIds
  rw [insFold_objGet, delFold_objGet]
  by_cases hA : k ∈ A
  · by_cases hcur : objGet current k = none
    · simp [hA, hcur]
    · obtain ⟨v, hv⟩ := Option.ne_none_iff_exists'.mp hcur
      simp [hA, hv]
  · simp only [hA, false_and, if_false, not_false_iff, and_true]
    by_cases hkeys : k ∈ current.map Prod.fst
    · simp [hkeys]
    · simp [hkeys, objGet_eq_none_of_not_mem_keys current k hkeys]

theorem foldCM_objGet_of_notmem (n : Nat) (cms : List ClientMetric) :
    ∀ (st : LiveState) (c : String), (∀ cm ∈ cms, cm.client_id ≠ c) →
      objGet (cms.foldl (applyClientMetric n) st).flClientProgress c
          = objGet st.flClientProgress c ∧
      objGet (cms.foldl (applyClientMetric n) st).flClientRoundHistory c
          = objGet st.flClientRoundHistory c := by
  induction cms with
  | nil => intro st c _; exact ⟨rfl, rfl⟩
  | cons cm rest ih =>
    intro st c h
    rw [List.foldl_cons]
    have h1 := ih (applyClientMetric n st cm) c
      (fun x hx => h x (List.mem_cons_of_mem _ hx))
    have hne : ¬ c = cm.client_id := fun hh =>
      (h cm (List.mem_cons_self _ _)) hh.symm
    constructor
    · rw [h1.1]
      simp [applyClientMetric, addFLClientRoundEntry, setFLClientProgress,
        objGet_objSet, hne]
    · rw [h1.2]
      simp [applyClientMetric, addFLClientRoundEntry, setFLClientProgress,
        objGet_objSet, hne]

theorem foldCM_objGet_of_mem (n : Nat) :
    ∀ (cms : List ClientMetric), (cms.map (·.client_id)).Nodup →
      ∀ (st : LiveState) (cm : ClientMetric), cm ∈ cms →
        objGet (cms.foldl (applyClientMetric n) st).flClientProgress cm.client_id
            = some (doneProgress cm) ∧
        objGet (cms.foldl (applyClientMetric n) st).flClientRoundHistory cm.client_id
            = some ((objGet st.flClientRoundHistory cm.client_id).getD []
                ++ [⟨n, cm.local_loss, cm.local_accuracy⟩]) := by
  intro cms
  induction cms with
  | nil => intro _ st cm h; cases h
  | cons cm0 rest ih =>
    intro hnd st cm h
    rw [List.foldl_cons]
    have hnd' : (∀ x ∈ rest, ¬ x.client_id = cm0.client_id)
        ∧ (rest.map (·.client_id)).Nodup := by simpa using hnd
    rcases List.mem_cons.mp h with rfl | hmem
    · have hnotin : ∀ x ∈ rest, x.client_id ≠ cm.client_id := fun x hx => hnd'.1 x hx
      have hframe := foldCM_objGet_of_notmem n rest (applyClientMetric n st cm)
        cm.client_id hnotin
      constructor
      · rw [hframe.1]
        simp [applyClientMetric, setFLClientProgress, addFLClientRoundEntry,
          objGet_objSet]
      · rw [hframe.2]
        simp [applyClientMetric, setFLClientProgress, addFLClientRoundEntry,
          objGet_objSet]
    · have hres := ih hnd'.2 (applyClientMetric n st cm0) cm hmem
      refine ⟨hres.1, ?_⟩
      rw [hres.2]
      have hne : ¬ cm.client_id = cm0.client_id := hnd'.1 cm hmem
      simp [applyClientMetric, setFLClientProgress, addFLClientRoundEntry,
        objGet_objSet, hne]

/-- Claim C8: an `fl_round` event with round `n` and metrics list `cms`
(distinct client ids) appends exactly one round result `(n, global_loss,
global_accuracy)`, rewrites each listed client to the done/100-percent entry
built from its metrics, appends exactly one `(n, local_loss, local_accuracy)`
entry to that client's round history, stores the event's global loss and
accuracy in the session record, and leaves every unlisted client's progress
and history unchanged. -/
theorem flRound_effects (s : LiveState) (d : FLRoundData) (cms : List ClientMetric)
    (hcm : d.client_metrics = some cms)
    (hnd : (cms.map (·.client_id)).Nodup) :
    (handleFLRound s d).flRoundResults
        = s.flRoundResults ++ [⟨d.round_number, d.global_loss, d.global_accuracy⟩] ∧
    ((handleFLRound s d).flGlobalProgress.map (·.global_loss) = some d.global_loss ∧
     (handleFLRound s d).flGlobalProgress.map (·.global_accuracy) = some d.global_accuracy) ∧
    (∀ cm ∈ cms,
      objGet (handleFLRound s d).flClientProgress cm.client_id = some (doneProgress cm) ∧
      objGet (handleFLRound s d).flClientRoundHistory cm.client_id
        = some ((objGet s.flClientRoundHistory cm.client_id).getD []
            ++ [⟨d.round_number, cm.local_loss, cm.local_accuracy⟩])) ∧
    (∀ c : String, (∀ cm ∈ cms, cm.client_id ≠ c) →
      objGet (handleFLRound s d).flClientProgress c = objGet s.flClientProgress c ∧
      objGet (handleFLRound s d).flClientRoundHistory c
        = objGet s.flClientRoundHistory c) := by
  refine ⟨?_, ⟨?_, ?_⟩, ?_, ?_⟩
  · simp [handleFLRound, hcm, foldCM_flRoundResults, setFLGlobalProgress,
      addFLRoundResult]
  · simp [handleFLRound, hcm, foldCM_flGlobalProgress, setFLGlobalProgress,
      addFLRoundResult]
  · simp [handleFLRound, hcm, foldCM_flGlobalProgress, setFLGlobalProgress,
      addFLRoundResult]
  · intro cm hmem
    have := foldCM_objGet_of_mem d.round_number cms hnd
      (setFLGlobalProgress
        (addFLRoundResult s d.round_number d.global_loss d.global_accuracy)
        { is_training := decide (d.round_number < d.total_rounds.getD d.round_number)
          current_round := d.round_number
          total_rounds := d.total_rounds.getD d.round_number
          global_loss := d.global_loss
          global_accuracy := d.global_accuracy
          aggregation_method := d.aggregation_method }) cm hmem
    simpa [handleFLRound, hcm, setFLGlobalProgress, addFLRoundResult] using this
  · intro c hc
    have := foldCM_objGet_of_notmem d.round_number cms
      (setFLGlobalProgress
        (addFLRoundResult s d.round_number d.global_loss d.global_accuracy)
        { is_training := decide (d.round_number < d.total_rounds.getD d.round_number)
          current_round := d.round_number
          total_rounds := d.total_rounds.getD d.round_number
          global_loss := d.global_loss
          global_accuracy := d.global_accuracy
          aggregation_method := d.aggregation_method }) c hc
    simpa [handleFLRound, hcm, setFLGlobalProgress, addFLRoundResult] using this

/-- The single client metric of the C8 witness scenario. -/
def c8Metric : ClientMetric := ⟨"bank_a", 3/10, 9/10, 500⟩

/-- The C8 witness round event: round 1, one participating client. -/
def c8Data : FLRoundData :=
  { round_number := 1, global_loss := some (1/2), global_accuracy := some (9/10),
    total_rounds := some 3, client_metrics := some [c8Metric] }

/-- Witness for C8: the concrete scenario of the spec — round 1 with
`client_metrics = [bank_a: loss 0.3, accuracy 0.9, 500 samples]` — run from
the empty store. -/
theorem flRound_effects_witness :
    c8Data.client_metrics = some [c8Metric] ∧
    ([c8Metric].map (·.client_id)).Nodup ∧
    c8Metric ∈ [c8Metric] ∧
    objGet (handleFLRound initialLiveState c8Data).flClientProgress "bank_a"
      = some (doneProgress c8Metric) ∧
    objGet (handleFLRound initialLiveState c8Data).flClientRoundHistory "bank_a"
      = some [⟨1, 3/10, 9/10⟩] ∧
    (handleFLRound initialLiveState c8Data).flRoundResults
      = [⟨1, some (1/2), some (9/10)⟩] := by
  have h := flRound_effects initialLiveState c8Data [c8Metric] rfl (by decide)
  have hm := h.2.2.1 c8Metric (by simp)
  refine ⟨rfl, by decide, by simp, ?_, ?_, ?_⟩
  · exact hm.1
  · exact hm.2.trans (by rfl)
  · exact h.1.trans (by rfl)

theorem polledRows_length (rs : List FLRound) :
    ∀ sn, ((polledRows sn rs).2).length = rs.length := by
  induction rs with
  | nil => intro sn; rfl
  | cons r rest ih => intro sn; simp [polledRows, ih]

theorem polledRows_fst (rs : List FLRound) :
    ∀ sn, (polledRows sn rs).1
      = sn + rs.countP (fun r => decide (r.round_number = 1)) := by
  induction rs with
  | nil => intro sn; simp [polledRows]
  | cons r rest ih =>
    intro sn
    by_cases h1 : r.round_number = 1
    · simp [polledRows, h1, ih, List.countP_cons]
      omega
    · simp [polledRows, h1, ih, List.countP_cons]

theorem polledRows_getD (rs : List FLRound) :
    ∀ sn i, i < rs.length →
      (polledRows sn rs).2.getD i dummyRow
        = mkPolledRow
            (sn + (rs.take (i+1)).countP (fun r => decide (r.round_number = 1)))
            (rs.getD i dummyRound) := by
  induction rs with
  | nil => intro sn i h; exact absurd h (Nat.not_lt_zero i)
  | cons r rest ih =>
    intro sn i h
    match i with
    | 0 =>
      by_cases h1 : r.round_number = 1 <;>
        simp [polledRows, h1, List.countP_cons, List.getD_cons_zero]
    | Nat.succ j =>
      have hj : j < rest.length := Nat.lt_of_succ_lt_succ h
      have hstep : (polledRows sn (r :: rest)).2.getD (j+1) dummyRow
          = (polledRows (if r.round_number = 1 then sn + 1 else sn) rest).2.getD j
              dummyRow := rfl
      rw [hstep, ih _ j hj, List.take_succ_cons, List.countP_cons, List.getD_cons_succ]
      congr 1
      by_cases h1 : r.round_number = 1
      · simp [h1]
        omega
      · simp [h1]

theorem polledRows_roundNum_mem (rs : List FLRound) :
    ∀ sn prow, prow ∈ (polledRows sn rs).2 → ∃ r ∈ rs, prow.roundNum = r.round_number := by
  induction rs with
  | nil => intro sn prow h; simp [polledRows] at h
  | cons r rest ih =>
    intro sn prow h
    simp only [polledRows, List.mem_cons] at h
    rcases h with rfl | h
    · exact ⟨r, List.mem_cons_self _ _, rfl⟩
    · obtain ⟨x, hx, hr⟩ := ih _ prow h
      exact ⟨x, List.mem_cons_of_mem _ hx, hr⟩

theorem polledRows_session_le (rs : List FLRound) :
    ∀ sn prow, prow ∈ (polledRows sn rs).2 → prow.session ≤ (polledRows sn rs).1 := by
  induction rs with
  | nil => intro sn prow h; simp [polledRows] at h
  | cons r rest ih =>
    intro sn prow h
    simp only [polledRows, List.mem_cons] at h
    rcases h with rfl | h
    · show (mkPolledRow _ r).session ≤ (polledRows _ rest).1
      rw [polledRows_fst]
      exact Nat.le_add_right _ _
    · exact ih _ prow h

/-- The polled round list of the C9 witness scenario: one persisted round. -/
def c9Rounds : List FLRound :=
  [{ id := 1, round_number := 1, global_loss := some (1/2), global_accuracy := some (4/5) }]

/-- The live round results of the C9 witness scenario. -/
def c9Live : List RoundResult :=
  [⟨1, some (1/2), some (4/5)⟩, ⟨2, some (2/5), some (17/20)⟩]

/-- The final session counter of the polled pass, with the JS `|| 1` fallback. -/
def liveSessionOf (rounds : List FLRound) : Nat :=
  if (polledRows 0 rounds).1 = 0 then 1 else (polledRows 0 rounds).1

/-- The de-duplication keys of the polled list (all built with the final
session counter, exactly as in the source). -/
def seenKeys (rounds : List FLRound) : List String :=
  rounds.map (fun r => roundKey r.round_number (polledRows 0 rounds).1)

/-- The appended live part of `chartData`. -/
def liveRows (rounds : List FLRound) (live : List RoundResult) : List ChartRow :=
  (live.filter
      (fun lr => decide (roundKey lr.round (liveSessionOf rounds) ∉ seenKeys rounds))).map
    (fun lr =>
      { round := if 0 < (polledRows 0 rounds).1 then
                   "S" ++ toString (polledRows 0 rounds).1 ++ "·R" ++ toString lr.round
                 else "R" ++ toString lr.round
        roundNum := lr.round
        accuracy := dispAccuracy lr.accuracy
        loss := dispLoss lr.loss
        session := liveSessionOf rounds
        id := 0 })

theorem chartData_eq (rounds : List FLRound) (live : List RoundResult) :
    chartData rounds live = (polledRows 0 rounds).2 ++ liveRows rounds live := rfl

/-- Claim C9: the merged chart sequence (i) labels each polled round with a
session counter that counts the `round_number = 1` boundaries seen so far,
printing the `S…·R…` label from that session and the polled round number, and
(ii) never appends a live round whose `(round, session)` pair already occurs
among the polled rows; (iii) on the spec's concrete instance — live rounds
`[(1,0.5,0.8),(2,0.4,0.85)]` merged with polled list `[(1,0.5,0.8)]` — the
result has length 2 with no repeated `(session, round)` pair. -/
theorem chartData_merge (rounds : List FLRound) (live : List RoundResult) :
    (∀ i, i < rounds.length →
      ((chartData rounds live).getD i dummyRow).session
          = (rounds.take (i+1)).countP (fun r => decide (r.round_number = 1)) ∧
      ((chartData rounds live).getD i dummyRow).roundNum
          = (rounds.getD i dummyRound).round_number ∧
      ((chartData rounds live).getD i dummyRow).round
          = "S" ++ toString ((chartData rounds live).getD i dummyRow).session
              ++ "·R" ++ toString ((chartData rounds live).getD i dummyRow).roundNum) ∧
    (∀ lrow ∈ (chartData rounds live).drop rounds.length,
      ∀ prow ∈ (chartData rounds live).take rounds.length,
        ¬(lrow.roundNum = prow.roundNum ∧ lrow.session = prow.session)) ∧
    ((chartData c9Rounds c9Live).length = 2 ∧
     (chartData c9Rounds c9Live).Pairwise
        (fun a b => ¬(a.session = b.session ∧ a.roundNum = b.roundNum))) := by
  have hplen : ((polledRows 0 rounds).2).length = rounds.length := polledRows_length rounds 0
  refine ⟨?_, ?_, ?_, ?_⟩
  · intro i hi
    have hlt : i < ((polledRows 0 rounds).2).length := by rw [hplen]; exact hi
    have hget : (chartData rounds live).getD i dummyRow
        = (polledRows 0 rounds).2.getD i dummyRow := by
      rw [chartData_eq]; exact List.getD_append _ _ _ _ hlt
    rw [hget, polledRows_getD rounds 0 i hi]
    exact ⟨by simp [mkPolledRow], rfl, rfl⟩
  · intro lrow hl prow hp
    rw [chartData_eq, ← hplen, List.drop_left] at hl
    rw [chartData_eq, ← hplen, List.take_left] at hp
    obtain ⟨lr, hlrf, rfl⟩ := List.mem_map.mp hl
    have hfil := List.mem_filter.mp hlrf
    have hkey : roundKey lr.round (liveSessionOf rounds) ∉ seenKeys rounds :=
      of_decide_eq_true hfil.2
    rintro ⟨hr, hs⟩
    by_cases h0 : (polledRows 0 rounds).1 = 0
    · have hle := polledRows_session_le rounds 0 prow hp
      rw [h0] at hle
      have hz : prow.session = 0 := Nat.le_zero.mp hle
      rw [hz] at hs
      simp [liveSessionOf, h0] at hs
    · obtain ⟨r, hrmem, hround⟩ := polledRows_roundNum_mem rounds 0 prow hp
      apply hkey
      have hkeq : roundKey lr.round (liveSessionOf rounds)
          = roundKey r.round_number (polledRows 0 rounds).1 := by
        have hlr : lr.round = r.round_number := by
          have : lr.round = prow.roundNum := hr
          rw [this, hround]
        rw [hlr]
        simp [liveSessionOf, h0]
      rw [hkeq]
      simp only [seenKeys]
      exact List.mem_map_of_mem _ hrmem
  · rfl
  · decide

/-- Witness for C9: the theorem applied at the spec's concrete instance,
discharging the index-bound and membership hypotheses there. -/
theorem chartData_merge_witness :
    0 < c9Rounds.length ∧
    ((chartData c9Rounds c9Live).getD 0 dummyRow).session
        = (c9Rounds.take 1).countP (fun r => decide (r.round_number = 1)) ∧
    ¬((((chartData c9Rounds c9Live).getD 1 dummyRow).roundNum
          = ((chartData c9Rounds c9Live).getD 0 dummyRow).roundNum) ∧
      (((chartData c9Rounds c9Live).getD 1 dummyRow).session
          = ((chartData c9Rounds c9Live).getD 0 dummyRow).session)) ∧
    (chartData c9Rounds c9Live).length = 2 := by
  have h := chartData_merge c9Rounds c9Live
  refine ⟨by decide, (h.1 0 (by decide)).1, ?_, h.2.2.1⟩
  exact h.2.1 _ (List.mem_cons_self _ _) _ (List.mem_cons_self _ _)

end FYP
